import Mathlib

/-!
Verification of the cortex-api identity and fingerprint core against its
natural-language specification.

Strings are embedded as `List Char` (named `Str` here); machine times are
`Nat` unix timestamps; the random inputs of the source (crypto/rand bytes,
UUIDs) are passed as explicit arguments so every definition is a pure
function of its inputs, exactly mirroring the Go control flow.
-/

/-- Strings of the Go source, embedded as lists of characters. -/
abbrev Str := List Char

/-! ## Token codec (service/token.go: `token`, `randomString`, `newToken`,
`ToTokenString`, `parseTokenString`) -/

/-- The hex alphabet used by Go's `encoding/hex`. -/
def hexDigit (n : Fin 16) : Char :=
  if n.val < 10 then Char.ofNat (48 + n.val) else Char.ofNat (87 + n.val)

/-- Go `hex.EncodeToString`: every byte becomes two lowercase hex digits
(high nibble first). -/
def hexEncodeBytes : List (Fin 256) → Str
  | [] => []
  | b :: rest =>
    hexDigit ⟨b.val / 16, by omega⟩ :: hexDigit ⟨b.val % 16, by omega⟩ ::
      hexEncodeBytes rest

/-- Source `randomString(byteNum)` reads `byteNum` random bytes and hex-encodes
them; the random bytes are made an explicit argument here. -/
def randomString (bytes : List (Fin 256)) : Str :=
  hexEncodeBytes bytes

/-- The two halves of a credential string (source struct `token`). -/
structure token where
  id : Str
  secret : Str
deriving DecidableEq, Repr

/-- Source `newToken()` draws 4 random bytes for the id and 16 for the secret;
the randomness is passed in explicitly. -/
def newToken (idBytes secretBytes : List (Fin 256)) : token :=
  { id := randomString idBytes, secret := randomString secretBytes }

/-- Source `token.ToTokenString`: `fmt.Sprintf("%s.%s", t.id, t.secret)`. -/
def token.ToTokenString (t : token) : Str :=
  t.id ++ '.' :: t.secret

/-- Go's `strings.Split` for a one-character separator: splits at every
occurrence; `Split("", sep) = [""]`, `Split(".", ".") = ["", ""]`. -/
def goSplit (sep : Char) : Str → List Str
  | [] => [[]]
  | c :: rest =>
    if c = sep then [] :: goSplit sep rest
    else
      match goSplit sep rest with
      | [] => [[c]]
      | p :: ps => (c :: p) :: ps

/-- Source `parseTokenString`: splits on `'.'` and requires exactly two parts
(`len(parts) != 2` is the only rejection); the parts themselves are not
inspected further. -/
def parseTokenString (tokenString : Str) : Except String token :=
  match goSplit '.' tokenString with
  | [i, s] => .ok { id := i, secret := s }
  | _ => .error "invalid token string"

/-! ## SHA-256 (Go `crypto/sha256`, used by the fingerprint calculator)

Words are `Nat` reduced mod `2^32`; messages and digests are byte lists. -/
/-- Truncation to a 32-bit word. -/
def w32 (n : Nat) : Nat := n % 4294967296

/-- Rotate a 32-bit word right by `n`. -/
def rotr32 (n x : Nat) : Nat :=
  w32 (Nat.lor (Nat.shiftRight x n) (Nat.shiftLeft x (32 - n)))

/-- SHA-256 small sigma 0. -/
def ssig0 (x : Nat) : Nat :=
  Nat.xor (Nat.xor (rotr32 7 x) (rotr32 18 x)) (Nat.shiftRight x 3)

/-- SHA-256 small sigma 1. -/
def ssig1 (x : Nat) : Nat :=
  Nat.xor (Nat.xor (rotr32 17 x) (rotr32 19 x)) (Nat.shiftRight x 10)

/-- SHA-256 big sigma 0. -/
def bsig0 (x : Nat) : Nat :=
  Nat.xor (Nat.xor (rotr32 2 x) (rotr32 13 x)) (rotr32 22 x)

/-- SHA-256 big sigma 1. -/
def bsig1 (x : Nat) : Nat :=
  Nat.xor (Nat.xor (rotr32 6 x) (rotr32 11 x)) (rotr32 25 x)

/-- SHA-256 choice function. -/
def chFn (x y z : Nat) : Nat :=
  Nat.xor (Nat.land x y) (Nat.land (Nat.xor x 4294967295) z)

/-- SHA-256 majority function. -/
def majFn (x y z : Nat) : Nat :=
  Nat.xor (Nat.xor (Nat.land x y) (Nat.land x z)) (Nat.land y z)

/-- The 64 SHA-256 round constants. -/
def shaK : List Nat :=
  [ 1116352408, 1899447441, 3049323471, 3921009573,
    961987163, 1508970993, 2453635748, 2870763221,
    3624381080, 310598401, 607225278, 1426881987,
    1925078388, 2162078206, 2614888103, 3248222580,
    3835390401, 4022224774, 264347078, 604807628,
    770255983, 1249150122, 1555081692, 1996064986,
    2554220882, 2821834349, 2952996808, 3210313671,
    3336571891, 3584528711, 113926993, 338241895,
    666307205, 773529912, 1294757372, 1396182291,
    1695183700, 1986661051, 2177026350, 2456956037,
    2730485921, 2820302411, 3259730800, 3345764771,
    3516065817, 3600352804, 4094571909, 275423344,
    430227734, 506948616, 659060556, 883997877,
    958139571, 1322822218, 1537002063, 1747873779,
    1955562222, 2024104815, 2227730452, 2361852424,
    2428436474, 2756734187, 3204031479, 3329325298 ]

/-- The eight SHA-256 working variables. -/
structure Sha8 where
  a : Nat
  b : Nat
  c : Nat
  d : Nat
  e : Nat
  f : Nat
  g : Nat
  h : Nat
deriving DecidableEq, Repr

/-- Initial SHA-256 hash state. -/
def shaInit : Sha8 :=
  ⟨ 1779033703, 3144134277, 1013904242, 2773480762,
    1359893119, 2600822924, 528734635, 1541459225 ⟩

/-- One SHA-256 compression round with constant `k` and schedule word `w`. -/
def shaRound (st : Sha8) (kw : Nat × Nat) : Sha8 :=
  let t1 := st.h + bsig1 st.e + chFn st.e st.f st.g + kw.1 + kw.2
  let t2 := bsig0 st.a + majFn st.a st.b st.c
  ⟨w32 (t1 + t2), st.a, st.b, st.c, w32 (st.d + t1), st.e, st.f, st.g⟩

/-- Expand a 16-word block to the 64-word message schedule. -/
def msgSchedule (block : List Nat) : List Nat :=
  (List.range 48).foldl
    (fun ws i =>
      ws ++ [w32 (ssig1 (ws.getD (i + 14) 0) + ws.getD (i + 9) 0 +
                  ssig0 (ws.getD (i + 1) 0) + ws.getD i 0)])
    block

/-- Process one 512-bit block. -/
def shaBlock (hs : Sha8) (block : List Nat) : Sha8 :=
  let fin := (shaK.zip (msgSchedule block)).foldl shaRound hs
  ⟨w32 (hs.a + fin.a), w32 (hs.b + fin.b), w32 (hs.c + fin.c), w32 (hs.d + fin.d),
   w32 (hs.e + fin.e), w32 (hs.f + fin.f), w32 (hs.g + fin.g), w32 (hs.h + fin.h)⟩

/-- Big-endian byte expansion (`width` bytes). -/
def natToBytesBE (width n : Nat) : List Nat :=
  match width with
  | 0 => []
  | w + 1 => natToBytesBE w (n / 256) ++ [n % 256]

/-- SHA-256 padding: `0x80`, zeros to 56 mod 64, then the bit length as
eight big-endian bytes. -/
def shaPad (msg : List Nat) : List Nat :=
  let r := (msg.length + 1) % 64
  let zeros := if r ≤ 56 then 56 - r else 120 - r
  msg ++ 128 :: List.replicate zeros 0 ++ natToBytesBE 8 (msg.length * 8)

/-- Group bytes into 32-bit big-endian words. -/
def words4 : List Nat → List Nat
  | b0 :: b1 :: b2 :: b3 :: rest => (((b0 * 256 + b1) * 256 + b2) * 256 + b3) :: words4 rest
  | _ => []

/-- Split a byte list into 64-byte chunks (structural recursion on a fuel
bound so the definition reduces inside the kernel). -/
def chunk64Go : Nat → List Nat → List (List Nat)
  | _, [] => []
  | 0, l => [l]
  | fuel + 1, l => l.take 64 :: chunk64Go fuel (l.drop 64)

/-- Split a byte list into 64-byte chunks. -/
def chunk64 (l : List Nat) : List (List Nat) :=
  chunk64Go l.length l

/-- SHA-256 digest of a byte list, as 32 bytes. -/
def sha256 (msg : List Nat) : List Nat :=
  let blocks := (chunk64 (shaPad msg)).map words4
  let hs := blocks.foldl shaBlock shaInit
  natToBytesBE 4 hs.a ++ natToBytesBE 4 hs.b ++ natToBytesBE 4 hs.c ++
    natToBytesBE 4 hs.d ++ natToBytesBE 4 hs.e ++ natToBytesBE 4 hs.f ++
    natToBytesBE 4 hs.g ++ natToBytesBE 4 hs.h

/-- Lowercase hex encoding of a digest byte list (`hex.EncodeToString`). -/
def hexOfBytes : List Nat → Str
  | [] => []
  | b :: rest => hexDigit ⟨b / 16 % 16, by omega⟩ :: hexDigit ⟨b % 16, by omega⟩ ::
      hexOfBytes rest

/-! ## JSON serialization of payload values (Go `encoding/json.Marshal`)

A finding payload is Go's `map[string]any`. Payload values are embedded as
`GoVal`: JSON-marshalable scalars (numbers at integral values, strings,
booleans, null), or a value of an unsupported Go kind (func, chan, ...),
for which `json.Marshal` fails. Non-ASCII code points and nested
maps/arrays play no role in any claim and are not modelled. -/

/-- Decimal digits of a natural number (structural recursion on a fuel
bound so the definition reduces inside the kernel). -/
def natDecCharsGo : Nat → Nat → Str
  | 0, _ => []
  | fuel + 1, n =>
    if h : n < 10 then [hexDigit ⟨n, by omega⟩]
    else natDecCharsGo fuel (n / 10) ++ [hexDigit ⟨n % 10, by omega⟩]

/-- Decimal digits of a natural number. -/
def natDecChars (n : Nat) : Str :=
  natDecCharsGo (n + 1) n

/-- Decimal representation of an integer. -/
def intDecChars (n : Int) : Str :=
  if n < 0 then '-' :: natDecChars n.natAbs else natDecChars n.natAbs

/-- JSON-marshalable payload scalars. -/
inductive JVal where
  | jnull : JVal
  | jbool (b : Bool) : JVal
  | jint (n : Int) : JVal
  | jstr (s : Str) : JVal
deriving DecidableEq, Repr

/-- A Go `any` payload value: either marshalable, or of a kind
(`func`, `chan`, `complex`) that `json.Marshal` rejects. -/
inductive GoVal where
  | js (v : JVal) : GoVal
  | unsupported (kind : String) : GoVal
deriving DecidableEq, Repr

/-- Go `encoding/json` string escaping (with the default HTML escaping):
quote, backslash, `<`, `>`, `&` and control characters are escaped. -/
def jsonEscapeChar (c : Char) : Str :=
  if c = '"' then ['\\', '"']
  else if c = '\\' then ['\\', '\\']
  else if c = '<' then ['\\', 'u', '0', '0', '3', 'c']
  else if c = '>' then ['\\', 'u', '0', '0', '3', 'e']
  else if c = '&' then ['\\', 'u', '0', '0', '2', '6']
  else if h : c.toNat < 32 then
    if c.toNat = 10 then ['\\', 'n']
    else if c.toNat = 13 then ['\\', 'r']
    else if c.toNat = 9 then ['\\', 't']
    else ['\\', 'u', '0', '0', hexDigit ⟨c.toNat / 16, by omega⟩,
          hexDigit ⟨c.toNat % 16, by omega⟩]
  else [c]

/-- Serialized form of a marshalable value, as bytes (character code
points; all concrete payloads in this development are ASCII). -/
def jsonBytesOf : JVal → List Nat
  | .jnull => "null".data.map Char.toNat
  | .jbool true => "true".data.map Char.toNat
  | .jbool false => "false".data.map Char.toNat
  | .jint n => (intDecChars n).map Char.toNat
  | .jstr s => ('"' :: (s.flatMap jsonEscapeChar) ++ ['"']).map Char.toNat

/-- Go `json.Marshal` on a payload value: fails exactly on unsupported kinds. -/
def jsonMarshal : GoVal → Except String (List Nat)
  | .js v => .ok (jsonBytesOf v)
  | .unsupported kind => .error ("json: unsupported type: " ++ kind)

/-! ## Fingerprint calculator (service/finding.go:
`findingHashCalculator`, `calculateFindingHash`) -/

/-- Source `repository.FindingType` is a Go string type. -/
abbrev FindingType := Str

/-- Source constant `repository.FindingTypePort = "port"`. -/
def FindingTypePort : FindingType := "port".data

/-- Source constant `repository.FindingTypeVulnerability = "vulnerability"`. -/
def FindingTypeVulnerability : FindingType := "vulnerability".data

/-- A finding payload, Go's `map[string]any`: association list with the
map lookup below (Go map literals have distinct keys). -/
abbrev FindingData := List (Str × GoVal)

/-- Go map indexing `data[field]`: a missing key yields the zero value of
`any`, a nil interface, which `json.Marshal` serializes as `null`. -/
def dataGet : FindingData → Str → GoVal
  | [], _ => .js .jnull
  | (k, v) :: rest, f => if k = f then v else dataGet rest f

/-- The running state of `findingHashCalculator`: the payload, the
accumulated marshalling errors, and — in place of the streaming
`sha256.New()` state — the bytes written to the digest so far. -/
structure findingHashCalculator where
  data : FindingData
  errors : List String
  hashFunc : List Nat
deriving Repr

/-- Source `newFindingHashCalculator`. -/
def newFindingHashCalculator (data : FindingData) : findingHashCalculator :=
  { data := data, errors := [], hashFunc := [] }

/-- Source `addField`: marshal `data[field]`; on error record it and write
nothing, otherwise write the serialized bytes into the digest. -/
def findingHashCalculator.addField (c : findingHashCalculator) (field : Str) :
    findingHashCalculator :=
  match jsonMarshal (dataGet c.data field) with
  | .error e => { c with errors := c.errors ++ [e] }
  | .ok bs => { c with hashFunc := c.hashFunc ++ bs }

/-- Source `calculateHash`: fail if any field failed to marshal, else the
hex-encoded SHA-256 digest. -/
def findingHashCalculator.calculateHash (c : findingHashCalculator) :
    Except String Str :=
  if c.errors.length > 0 then
    .error ("unable to calculate finding hash: " ++
      c.errors.foldl (fun acc e => acc ++ e ++ ",") "")
  else
    .ok (hexOfBytes (sha256 c.hashFunc))

/-- Source `findingService.calculateFindingHash`: "port" hashes the fields
`port`, `protocol` in that order; "vulnerability" hashes `template-id`,
`port`; every other type is rejected. -/
def calculateFindingHash (findingType : FindingType) (findingData : FindingData) :
    Except String Str :=
  let calculator := newFindingHashCalculator findingData
  if findingType = FindingTypePort then
    ((calculator.addField "port".data).addField "protocol".data).calculateHash
  else if findingType = FindingTypeVulnerability then
    ((calculator.addField "template-id".data).addField "port".data).calculateHash
  else
    .error "unsupported finding type"

/-- Decidable equality for `Except` results, used to settle concrete
instances by computation. -/
instance exceptDecEq {ε α : Type} [DecidableEq ε] [DecidableEq α] :
    DecidableEq (Except ε α) := fun x y =>
  match x, y with
  | .ok a, .ok b =>
    if h : a = b then .isTrue (by rw [h])
    else .isFalse (by intro hh; cases hh; exact h rfl)
  | .error a, .error b =>
    if h : a = b then .isTrue (by rw [h])
    else .isFalse (by intro hh; cases hh; exact h rfl)
  | .ok _, .error _ => .isFalse (by intro hh; cases hh)
  | .error _, .ok _ => .isFalse (by intro hh; cases hh)

/-- The ordered field list hashed for each recognized finding type. -/
def requiredFieldsFor (findingType : FindingType) : List Str :=
  if findingType = FindingTypePort then ["port".data, "protocol".data]
  else if findingType = FindingTypeVulnerability then ["template-id".data, "port".data]
  else []

/-! ## Identity store records (repository/auth.go, repository/agent.go)

Rows of the `users`, `tokens`, `sessions` and `agents` tables, with the Go
field names; times are unix-timestamp `Nat`s. Claim-irrelevant metadata
columns (provider, email, display name) are omitted. -/

/-- Source `repository.User` (claim-relevant fields; `Password` is the stored
argon hash of the user's password). -/
structure User where
  ID : Str
  Username : Str
  Password : Str
deriving DecidableEq, Repr

/-- Source `repository.AuthToken`: a user session token row; `ID` is the public
id, `Hash` the hash of the secret half. -/
structure AuthToken where
  ID : Str
  Hash : Str
  UserID : Str
  UserAgent : Str
  SourceIP : Str
  Revoked : Bool
  CreatedAt : Nat
  ExpiresAt : Nat
deriving DecidableEq, Repr

/-- Source `repository.Session`: the session-based generation of the credential
store; `Token` holds the whole session token string. -/
structure Session where
  UserID : Str
  Token : Str
  UserAgent : Str
  SourceIP : Str
  Revoked : Bool
  CreatedAt : Nat
  ExpiresAt : Nat
deriving DecidableEq, Repr

/-- Source `repository.Agent`. -/
structure Agent where
  ID : Str
  Name : Str
  TokenHash : Str
  CreatedAt : Nat
deriving DecidableEq, Repr

/-- Error values crossing the repository/service boundary. -/
inductive AppErr where
  | errNotFound : AppErr
  | errUniqueViolation : AppErr
  | errUnauthenticated : AppErr
  | errInvalidFormat (msg : String) : AppErr
deriving DecidableEq, Repr

/-- Repository `GetUser`: `SELECT * FROM users WHERE id = $1` (id is the key). -/
def getUser : List User → Str → Option User
  | [], _ => none
  | u :: rest, i => if u.ID = i then some u else getUser rest i

/-- Repository `GetToken`: `SELECT * FROM tokens WHERE id = $1`. -/
def getToken : List AuthToken → Str → Option AuthToken
  | [], _ => none
  | t :: rest, i => if t.ID = i then some t else getToken rest i

/-- Repository `GetAgent`: `SELECT * FROM agents WHERE id = $1`. -/
def getAgent : List Agent → Str → Option Agent
  | [], _ => none
  | a :: rest, i => if a.ID = i then some a else getAgent rest i

/-- Repository `CreateAgent`: `INSERT INTO agents ...`; the table has
`id` as primary key and `name` unique, so a duplicate of either is a
unique violation. -/
def createAgentRow (agents : List Agent) (agent : Agent) :
    Except AppErr (List Agent) :=
  if agents.any (fun a => a.ID == agent.ID || a.Name == agent.Name) then
    .error .errUniqueViolation
  else
    .ok (agents ++ [agent])

/-- The token-table update run by `DeleteToken`:
`UPDATE tokens SET revoked=true WHERE id=@id`. -/
def updateTokensSetRevoked (tokens : List AuthToken) (tokenId : Str) :
    List AuthToken :=
  tokens.map (fun t => if t.ID = tokenId then { t with Revoked := true } else t)

/-- Source `PostgresAuthRepository.DeleteToken`: issues the revocation `UPDATE`
through `tx.QueryRow` and then `Scan`s the result row. The statement has
no `RETURNING` clause, so its result set is empty on every input and
`Scan` yields `pgx.ErrNoRows`, which the function converts to
`ErrNotFound` — whether or not a row was matched and updated. -/
def DeleteToken (tokens : List AuthToken) (tokenId : Str) :
    List AuthToken × Except AppErr Unit :=
  (updateTokensSetRevoked tokens tokenId, .error .errNotFound)

/-- The auth store: `users` and `tokens` tables. -/
structure AuthDb where
  users : List User
  tokens : List AuthToken
deriving DecidableEq, Repr

/-! ## Auth service

`agentService.CreateAgentWithToken` and `agentService.CreateAgent` are
embedded from `service/auth.go`. The token-based service operations
`ValidateToken`, `ValidateAgentToken` and `RevokeToken` are called by the
middleware and handlers in src but their implementation file is not in
src, so they are modelled from the spec (§4.4); likewise the crypto
package (`CalculateArgonHash` / `ValidatePasswordWithArgonHash`) is not in
src, and hashing is abstracted into an explicit `hashFn` argument, with
verification as recomputation, per §4.1. -/

/-- Source `agentService.CreateAgentWithToken` (bootstrap): parse the supplied
credential; if an agent with its public id exists return it unchanged,
else hash the secret and insert a new agent whose id is the public id.
Errors roll the transaction back, leaving the store unchanged. -/
def CreateAgentWithToken (hashFn : Str → Str) (now : Nat) (agents : List Agent)
    (tokenPlain name : Str) : List Agent × Except AppErr Agent :=
  match parseTokenString tokenPlain with
  | .error _ => (agents, .error (.errInvalidFormat "invalid token format"))
  | .ok tokenComponents =>
    match getAgent agents tokenComponents.id with
    | some existingAgent => (agents, .ok existingAgent)
    | none =>
      let agent : Agent :=
        { ID := tokenComponents.id, Name := name,
          TokenHash := hashFn tokenComponents.secret, CreatedAt := now }
      match createAgentRow agents agent with
      | .error e => (agents, .error e)
      | .ok agents1 => (agents1, .ok agent)

/-- Source `agentService.CreateAgent`: mint a fresh credential (randomness passed
in), hash the secret, insert the agent, and return the plaintext
credential string once. -/
def CreateAgent (hashFn : Str → Str) (now : Nat) (agents : List Agent)
    (name : Str) (idBytes secretBytes : List (Fin 256)) :
    List Agent × Except AppErr (Agent × Str) :=
  let tokenComponents := newToken idBytes secretBytes
  let agent : Agent :=
    { ID := tokenComponents.id, Name := name,
      TokenHash := hashFn tokenComponents.secret, CreatedAt := now }
  match createAgentRow agents agent with
  | .error e => (agents, .error e)
  | .ok agents1 => (agents1, .ok (agent, tokenComponents.ToTokenString))

/-- Source `CreateSessionOptions` of the session-based service. -/
structure CreateSessionOptions where
  UserID : Str
  UserAgent : Str
  SourceIP : Str
deriving DecidableEq, Repr

/-- Source `authService.generateSessionID`: a fresh UUID with the dashes
removed (`strings.ReplaceAll(uuid.New().String(), "-", "")`); the UUID
string is passed in explicitly. -/
def generateSessionID (uuidStr : Str) : Str :=
  uuidStr.filter (fun c => c ≠ '-')

/-- Source `authService.CreateSession` (session-based generation, in src): check
the user exists, then persist a `Session` whose `Token` column holds the
generated session id itself, expiring a fixed 7 days after issuance. -/
def CreateSession (users : List User) (sessions : List Session) (now : Nat)
    (uuidStr : Str) (opt : CreateSessionOptions) :
    List Session × Except AppErr Session :=
  match getUser users opt.UserID with
  | none => (sessions, .error .errNotFound)
  | some _ =>
    let session : Session :=
      { UserID := opt.UserID, Token := generateSessionID uuidStr,
        UserAgent := opt.UserAgent, SourceIP := opt.SourceIP,
        Revoked := false, CreatedAt := now, ExpiresAt := now + 604800 }
    (sessions ++ [session], .ok session)

/-- Modelled from the spec: the token-based `authService.ValidateToken`
(called at middleware/authn.go:137 but absent from src). §4.4: parse the
string (format error → Unauthenticated); look the token up by public id
(absent → Unauthenticated); reject if expired (current time ≥ expiry) or
revoked; verify the secret against the stored hash (mismatch →
Unauthenticated); resolve the owning user (absent → Unauthenticated). -/
def ValidateToken (hashFn : Str → Str) (now : Nat) (db : AuthDb)
    (tokenString : Str) : Except AppErr (User × Str) :=
  match parseTokenString tokenString with
  | .error _ => .error .errUnauthenticated
  | .ok tokenComponents =>
    match getToken db.tokens tokenComponents.id with
    | none => .error .errUnauthenticated
    | some tok =>
      if tok.ExpiresAt ≤ now then .error .errUnauthenticated
      else if tok.Revoked then .error .errUnauthenticated
      else if hashFn tokenComponents.secret ≠ tok.Hash then .error .errUnauthenticated
      else
        match getUser db.users tok.UserID with
        | none => .error .errUnauthenticated
        | some user => .ok (user, tok.ID)

/-- Modelled from the spec: the token-based `authService.ValidateAgentToken`
(called at middleware/authn.go:166 but absent from src). §4.4: parse, look
the agent up by public id, verify the secret hash; no expiry check. -/
def ValidateAgentToken (hashFn : Str → Str) (agents : List Agent)
    (tokenString : Str) : Except AppErr Agent :=
  match parseTokenString tokenString with
  | .error _ => .error .errUnauthenticated
  | .ok tokenComponents =>
    match getAgent agents tokenComponents.id with
    | none => .error .errUnauthenticated
    | some agent =>
      if hashFn tokenComponents.secret ≠ agent.TokenHash then
        .error .errUnauthenticated
      else .ok agent

/-- Modelled from the spec: the token-based service `RevokeToken` (absent
from src; §4.4 "parses, then marks the Token revoked", reporting
nonexistent tokens as Unauthenticated). It runs the repository
`DeleteToken` inside the per-operation transaction used by every service
method in `service/auth.go`: commit on success, roll back (store
unchanged) on error. -/
def RevokeToken (db : AuthDb) (tokenString : Str) :
    AuthDb × Except AppErr Unit :=
  match parseTokenString tokenString with
  | .error _ => (db, .error .errUnauthenticated)
  | .ok tokenComponents =>
    match DeleteToken db.tokens tokenComponents.id with
    | (tokens1, .ok _) => ({ db with tokens := tokens1 }, .ok ())
    | (_, .error .errNotFound) => (db, .error .errUnauthenticated)
    | (_, .error e) => (db, .error e)

/-! ## Authentication middleware (middleware/authn.go, two-path version) -/

/-- The request-scoped user principal (`cortexContext.UserInfoData`). -/
structure UserInfoData where
  UserID : Str
  Username : Str
  TokenID : Str
deriving DecidableEq, Repr

/-- The request-scoped agent principal (`cortexContext.AgentInfoData`). -/
structure AgentInfoData where
  AgentID : Str
deriving DecidableEq, Repr

/-- A principal value attached to the request context
(`context.WithValue` under `KeyUserInfo` or `KeyAgentInfo`). -/
inductive CtxEntry where
  | userInfo (info : UserInfoData) : CtxEntry
  | agentInfo (info : AgentInfoData) : CtxEntry
deriving DecidableEq, Repr

/-- An inbound request: its headers (`Header.Get` returns `""` for an
absent header) and its incoming context. -/
structure Request where
  headers : Str → Str
  ctx : List CtxEntry

/-- Source constant `userTokenHeader = "Authorization"`. -/
def userTokenHeader : Str := "Authorization".data

/-- Source constant `agentTokenHeader = "X-Agent-Token"`. -/
def agentTokenHeader : Str := "X-Agent-Token".data

/-- The two `AuthService` operations the middleware consumes. -/
structure AuthServiceOps where
  validateToken : Str → Except AppErr (User × Str)
  validateAgentToken : Str → Except AppErr Agent

/-- Go's `strings.CutPrefix`: `some` of the remainder when the pattern
leads the string, else `none`. -/
def goCutPfx : Str → Str → Option Str
  | [], s => some s
  | _ :: _, [] => none
  | p :: ps, c :: cs => if p = c then goCutPfx ps cs else none

/-- Source `Authentication.tryUserAuthentication`: read the bearer header,
require the `"Bearer "` form, validate the token, and on success attach a
`UserInfoData` principal to the request context. -/
def tryUserAuthentication (svc : AuthServiceOps) (r : Request) :
    List CtxEntry × Bool :=
  let authHeader := r.headers userTokenHeader
  if authHeader = [] then (r.ctx, false)
  else
    match goCutPfx "Bearer ".data authHeader with
    | none => (r.ctx, false)
    | some tokenString =>
      match svc.validateToken tokenString with
      | .error _ => (r.ctx, false)
      | .ok (user, tokenId) =>
        (.userInfo { UserID := user.ID, Username := user.Username,
                     TokenID := tokenId } :: r.ctx, true)

/-- Source `Authentication.tryAgentAuthentication`: read the agent header (no
prefix), validate, and on success attach an `AgentInfoData` principal. -/
def tryAgentAuthentication (svc : AuthServiceOps) (r : Request) :
    List CtxEntry × Bool :=
  let agentToken := r.headers agentTokenHeader
  if agentToken = [] then (r.ctx, false)
  else
    match svc.validateAgentToken agentToken with
    | .error _ => (r.ctx, false)
    | .ok agent => (.agentInfo { AgentID := agent.ID } :: r.ctx, true)

/-- The middleware's verdict: pass the request on with an enriched
context, or reject with 401 before any downstream handler. -/
inductive MwOutcome where
  | accepted (ctx : List CtxEntry) : MwOutcome
  | unauthorized : MwOutcome
deriving DecidableEq, Repr

/-- Source `Authentication.OnRequest`: user path first; the agent path runs only
if the user path did not succeed; reject when both fail. -/
def OnRequest (svc : AuthServiceOps) (r : Request) : MwOutcome :=
  let ua := tryUserAuthentication svc r
  if ua.2 then .accepted ua.1
  else
    let aa := tryAgentAuthentication svc r
    if aa.2 then .accepted aa.1 else .unauthorized

/-! ## Supporting lemmas -/

theorem goSplit_ne_nil (sep : Char) (s : Str) : goSplit sep s ≠ [] := by
  induction s with
  | nil => simp [goSplit]
  | cons c rest ih =>
    simp only [goSplit]
    split
    · simp
    · cases h : goSplit sep rest with
      | nil => simp
      | cons p ps => simp

theorem goSplit_append_sep (sep : Char) (a b : Str) (ha : sep ∉ a) :
    goSplit sep (a ++ sep :: b) = a :: goSplit sep b := by
  induction a with
  | nil => simp [goSplit]
  | cons c rest ih =>
    simp only [List.mem_cons, not_or] at ha
    simp only [List.cons_append, goSplit]
    rw [if_neg (fun h => ha.1 h.symm)]
    rw [show rest ++ sep :: b = rest.append (sep :: b) from rfl] at ih
    rw [ih ha.2]

theorem goSplit_no_sep (sep : Char) (b : Str) (hb : sep ∉ b) :
    goSplit sep b = [b] := by
  induction b with
  | nil => simp [goSplit]
  | cons c rest ih =>
    simp only [List.mem_cons, not_or] at hb
    simp only [goSplit]
    rw [if_neg (fun h => hb.1 h.symm)]
    rw [ih hb.2]

theorem hexDigit_ne_dot (n : Fin 16) : hexDigit n ≠ '.' := by
  fin_cases n <;> decide

theorem dot_not_mem_hexEncodeBytes (bs : List (Fin 256)) :
    '.' ∉ hexEncodeBytes bs := by
  induction bs with
  | nil => simp [hexEncodeBytes]
  | cons b rest ih =>
    simp only [hexEncodeBytes, List.mem_cons, not_or]
    exact ⟨fun h => hexDigit_ne_dot _ h.symm, fun h => hexDigit_ne_dot _ h.symm, ih⟩

theorem goSplit_length (sep : Char) (s : Str) :
    (goSplit sep s).length = s.count sep + 1 := by
  induction s with
  | nil => simp [goSplit]
  | cons c rest ih =>
    simp only [goSplit]
    split
    · rename_i h
      subst h
      simp [List.count_cons, ih]
    · rename_i h
      cases hg : goSplit sep rest with
      | nil => exact absurd hg (goSplit_ne_nil sep rest)
      | cons p ps =>
        simp only [List.length_cons]
        rw [hg] at ih
        simp only [List.length_cons] at ih
        have : sep ≠ c := fun hh => h hh.symm
        simp [List.count_cons, if_neg h, ih]

theorem goSplit_eq_one_part (sep : Char) (s b : Str)
    (h : goSplit sep s = [b]) : s = b ∧ sep ∉ b := by
  induction s generalizing b with
  | nil =>
    simp only [goSplit, List.cons.injEq] at h
    exact ⟨h.1.symm ▸ rfl, by simp [← h.1]⟩
  | cons c rest ih =>
    simp only [goSplit] at h
    split at h
    · rename_i hc
      simp only [List.cons.injEq] at h
      exact absurd h.2 (goSplit_ne_nil sep rest)
    · rename_i hc
      cases hg : goSplit sep rest with
      | nil => exact absurd hg (goSplit_ne_nil sep rest)
      | cons p ps =>
        rw [hg] at h
        simp only [List.cons.injEq] at h
        obtain ⟨hb, hps⟩ := h
        subst hps
        obtain ⟨hrest, hmem⟩ := ih p hg
        subst hrest
        refine ⟨hb, ?_⟩
        rw [← hb]
        simp only [List.mem_cons, not_or]
        exact ⟨fun hh => hc hh.symm, hmem⟩

theorem goSplit_eq_two_parts (sep : Char) (s a b : Str)
    (h : goSplit sep s = [a, b]) :
    s = a ++ sep :: b ∧ sep ∉ a ∧ sep ∉ b := by
  induction s generalizing a b with
  | nil => simp [goSplit] at h
  | cons c rest ih =>
    simp only [goSplit] at h
    split at h
    · rename_i hc
      subst hc
      simp only [List.cons.injEq] at h
      obtain ⟨ha, hrest⟩ := h
      obtain ⟨hr, hmem⟩ := goSplit_eq_one_part c rest b hrest
      subst hr
      exact ⟨by rw [← ha]; rfl, by simp [← ha], hmem⟩
    · rename_i hc
      cases hg : goSplit sep rest with
      | nil => exact absurd hg (goSplit_ne_nil sep rest)
      | cons p ps =>
        rw [hg] at h
        simp only [List.cons.injEq] at h
        obtain ⟨ha, hps⟩ := h
        subst hps
        obtain ⟨hrest, hpmem, hbmem⟩ := ih p b hg
        subst hrest
        refine ⟨by rw [← ha]; rfl, ?_, hbmem⟩
        rw [← ha]
        simp only [List.mem_cons, not_or]
        exact ⟨fun hh => hc hh.symm, hpmem⟩

/-! ## Claim C8 -/

/-- C8 counterexample: the string `"a."` has an empty secret half, yet
`parseTokenString` accepts it — emptiness of the halves is not checked,
only the number of parts. -/
theorem c8_counterexample :
    parseTokenString ['a', '.'] = .ok { id := ['a'], secret := [] } := rfl

/-- C8 (amended): `parseTokenString` succeeds exactly on the strings that
split on `'.'` into two parts — those containing exactly one `'.'` — and
the recovered halves reassemble the input and are `'.'`-free; the halves
are allowed to be empty. -/
theorem c8_parse_iff_one_dot (s : Str) :
    (∃ t : token, parseTokenString s = .ok t ∧ s = t.id ++ '.' :: t.secret) ↔
      s.count '.' = 1 := by
  constructor
  · rintro ⟨t, hok, -⟩
    unfold parseTokenString at hok
    have hlen : (goSplit '.' s).length = 2 := by
      rcases hg : goSplit '.' s with - | ⟨a, - | ⟨b, - | ⟨c, l⟩⟩⟩ <;>
        rw [hg] at hok <;> simp_all
    have := goSplit_length '.' s
    omega
  · intro hcount
    have hlen : (goSplit '.' s).length = 2 := by
      rw [goSplit_length, hcount]
    rcases hg : goSplit '.' s with - | ⟨a, - | ⟨b, - | ⟨c, l⟩⟩⟩ <;>
      rw [hg] at hlen <;> simp at hlen
    obtain ⟨hs, -, -⟩ := goSplit_eq_two_parts '.' s a b hg
    exact ⟨{ id := a, secret := b }, by simp [parseTokenString, hg], hs⟩

/-! ## Claim C9 -/

/-- C9: for every generated credential string (any id/secret randomness),
parsing recovers the two hex halves and re-formatting returns the exact
same string: `Format(Parse(s)) = s`. -/
theorem c9_format_parse_round_trip (idBytes secretBytes : List (Fin 256)) :
    ∃ t : token,
      parseTokenString ((newToken idBytes secretBytes).ToTokenString) = .ok t ∧
      t.ToTokenString = (newToken idBytes secretBytes).ToTokenString := by
  refine ⟨newToken idBytes secretBytes, ?_, rfl⟩
  unfold parseTokenString token.ToTokenString newToken randomString
  rw [goSplit_append_sep '.' _ _ (dot_not_mem_hexEncodeBytes idBytes),
    goSplit_no_sep '.' _ (dot_not_mem_hexEncodeBytes secretBytes)]

/-! ## Claim C4 -/

/-- C4 counterexample: the empty payload is missing both required fields
of type "port", yet the fingerprint calculation succeeds — a missing key
yields a nil `any`, which marshals to JSON `null` and is hashed, so an
absent required field is not rejected. -/
theorem c4_counterexample :
    calculateFindingHash FindingTypePort [] =
      .ok ("2c7bddafa6f824cb0e682091aa1d9ca392883cb1f5bcff95389adc9feae77fcd".data) := by
  decide

/-- C4 (amended): the fingerprint calculation fails exactly when the type
tag is unrecognized (rejected, never hashed with a default) or some
required field of that type holds a value `json.Marshal` cannot
serialize; a required field that is merely absent is serialized as JSON
`null` and hashed, not rejected. -/
theorem c4_error_iff (findingType : FindingType) (findingData : FindingData) :
    (∃ e, calculateFindingHash findingType findingData = .error e) ↔
      ((findingType ≠ FindingTypePort ∧ findingType ≠ FindingTypeVulnerability) ∨
        ∃ f ∈ requiredFieldsFor findingType,
          ∃ e, jsonMarshal (dataGet findingData f) = .error e) := by
  by_cases hp : findingType = FindingTypePort
  · subst hp
    rcases hm1 : jsonMarshal (dataGet findingData "port".data) with e1 | b1 <;>
      rcases hm2 : jsonMarshal (dataGet findingData "protocol".data) with e2 | b2 <;>
        simp [calculateFindingHash, requiredFieldsFor, newFindingHashCalculator,
          findingHashCalculator.addField, findingHashCalculator.calculateHash,
          hm1, hm2]
  · by_cases hv : findingType = FindingTypeVulnerability
    · subst hv
      rcases hm1 : jsonMarshal (dataGet findingData "template-id".data) with e1 | b1 <;>
        rcases hm2 : jsonMarshal (dataGet findingData "port".data) with e2 | b2 <;>
          simp [calculateFindingHash, requiredFieldsFor, newFindingHashCalculator,
            findingHashCalculator.addField, findingHashCalculator.calculateHash,
            hm1, hm2, hp]
    · simp [calculateFindingHash, requiredFieldsFor, hp, hv]

/-! ## Claim C7 -/

/-- C7 counterexample: two "port" payloads that differ in the values of
both required fields (`port` 12 vs 1, `protocol` 3 vs 23) nevertheless
get the same fingerprint, with no SHA-256 collision involved: the
serialized field values are concatenated without a separator, so
`"12" ++ "3"` and `"1" ++ "23"` feed identical bytes to the digest. -/
theorem c7_counterexample :
    calculateFindingHash FindingTypePort
        [("port".data, .js (.jint 12)), ("protocol".data, .js (.jint 3))] =
      calculateFindingHash FindingTypePort
        [("port".data, .js (.jint 1)), ("protocol".data, .js (.jint 23))] ∧
    dataGet [("port".data, .js (.jint 12)), ("protocol".data, .js (.jint 3))]
        "port".data ≠
      dataGet [("port".data, .js (.jint 1)), ("protocol".data, .js (.jint 23))]
        "port".data := by
  exact ⟨rfl, by decide⟩

/-- C7 (amended): for every recognized type the fingerprint is a pure
function of the type's fixed ordered field list — payloads agreeing on
the required fields give equal fingerprints regardless of key order or
unrelated extra fields — and the spec's concrete pair of differing
payloads (`port` 8080 vs 8081) gives different fingerprints; but payloads
differing in a required field can share a fingerprint even without a
SHA-256 collision, because the serialized fields are concatenated without
a separator (see the counterexample). -/
theorem c7_fingerprint_determinism :
    (∀ (findingType : FindingType) (d1 d2 : FindingData),
        (∀ f ∈ requiredFieldsFor findingType, dataGet d1 f = dataGet d2 f) →
        calculateFindingHash findingType d1 = calculateFindingHash findingType d2) ∧
    calculateFindingHash FindingTypePort
        [("port".data, .js (.jint 8080)), ("protocol".data, .js (.jstr "tcp".data))] ≠
      calculateFindingHash FindingTypePort
        [("port".data, .js (.jint 8081)), ("protocol".data, .js (.jstr "tcp".data))] := by
  constructor
  · intro findingType d1 d2 hfields
    by_cases hp : findingType = FindingTypePort
    · subst hp
      have h1 : jsonMarshal (dataGet d2 "port".data) =
          jsonMarshal (dataGet d1 "port".data) := by
        rw [hfields "port".data (by simp [requiredFieldsFor])]
      have h2 : jsonMarshal (dataGet d2 "protocol".data) =
          jsonMarshal (dataGet d1 "protocol".data) := by
        rw [hfields "protocol".data (by simp [requiredFieldsFor])]
      rcases hm1 : jsonMarshal (dataGet d1 "port".data) with e1 | b1 <;>
        rcases hm2 : jsonMarshal (dataGet d1 "protocol".data) with e2 | b2 <;>
          rw [hm1] at h1 <;> rw [hm2] at h2 <;>
            simp [calculateFindingHash, newFindingHashCalculator,
              findingHashCalculator.addField, findingHashCalculator.calculateHash,
              hm1, hm2, h1, h2]
    · by_cases hv : findingType = FindingTypeVulnerability
      · subst hv
        have h1 : jsonMarshal (dataGet d2 "template-id".data) =
            jsonMarshal (dataGet d1 "template-id".data) := by
          rw [hfields "template-id".data (by simp [requiredFieldsFor, hp])]
        have h2 : jsonMarshal (dataGet d2 "port".data) =
            jsonMarshal (dataGet d1 "port".data) := by
          rw [hfields "port".data (by simp [requiredFieldsFor, hp])]
        rcases hm1 : jsonMarshal (dataGet d1 "template-id".data) with e1 | b1 <;>
          rcases hm2 : jsonMarshal (dataGet d1 "port".data) with e2 | b2 <;>
            rw [hm1] at h1 <;> rw [hm2] at h2 <;>
              simp [calculateFindingHash, newFindingHashCalculator,
                findingHashCalculator.addField, findingHashCalculator.calculateHash,
                hm1, hm2, h1, h2, hp]
      · simp [calculateFindingHash, hp, hv]
  · decide

/-- C7 witness: the determinism half applied at the spec's example — the
same "port" observation with its map entries in the opposite order and an
unrelated extra field gets the same fingerprint. -/
theorem c7_witness :
    calculateFindingHash FindingTypePort
        [("port".data, .js (.jint 8080)), ("protocol".data, .js (.jstr "tcp".data))] =
      calculateFindingHash FindingTypePort
        [("protocol".data, .js (.jstr "tcp".data)), ("banner".data, .js (.jstr "x".data)),
         ("port".data, .js (.jint 8080))] :=
  c7_fingerprint_determinism.1 FindingTypePort
    [("port".data, .js (.jint 8080)), ("protocol".data, .js (.jstr "tcp".data))]
    [("protocol".data, .js (.jstr "tcp".data)), ("banner".data, .js (.jstr "x".data)),
     ("port".data, .js (.jint 8080))]
    (by decide)

/-! ## Claim C10 -/

/-- C10: the type tag itself is never fed into the digest — only the
serialized required-field values are — so fingerprints collide across
types: whenever `d1`'s `port` field serializes like `d2`'s `template-id`
field and `d1`'s `protocol` field like `d2`'s `port` field, the "port"
fingerprint of `d1` equals the "vulnerability" fingerprint of `d2`. -/
theorem c10_cross_type_collision (d1 d2 : FindingData)
    (h1 : jsonMarshal (dataGet d1 "port".data) =
          jsonMarshal (dataGet d2 "template-id".data))
    (h2 : jsonMarshal (dataGet d1 "protocol".data) =
          jsonMarshal (dataGet d2 "port".data)) :
    calculateFindingHash FindingTypePort d1 =
      calculateFindingHash FindingTypeVulnerability d2 := by
  rcases hm1 : jsonMarshal (dataGet d1 "port".data) with e1 | b1 <;>
    rcases hm2 : jsonMarshal (dataGet d1 "protocol".data) with e2 | b2 <;>
      rw [hm1] at h1 <;> rw [hm2] at h2 <;>
        simp [calculateFindingHash, newFindingHashCalculator,
          findingHashCalculator.addField, findingHashCalculator.calculateHash,
          hm1, hm2, ← h1, ← h2,
          show FindingTypeVulnerability ≠ FindingTypePort from by decide]

/-- C10 witness: a concrete "port" observation and a concrete
"vulnerability" observation with matching serialized fields share one
fingerprint. -/
theorem c10_witness :
    calculateFindingHash FindingTypePort
        [("port".data, .js (.jint 12)), ("protocol".data, .js (.jint 3))] =
      calculateFindingHash FindingTypeVulnerability
        [("template-id".data, .js (.jint 12)), ("port".data, .js (.jint 3))] :=
  c10_cross_type_collision
    [("port".data, .js (.jint 12)), ("protocol".data, .js (.jint 3))]
    [("template-id".data, .js (.jint 12)), ("port".data, .js (.jint 3))]
    (by decide) (by decide)

/-! ## Claim C1 -/

/-- C1: whenever a credential string parses and its public id resolves to
a stored token, validation rejects with Unauthenticated if the current
time is at or past the token's expiry (so expiry = now fails) or the
revoked flag is set; it rejects when the presented secret's hash does not
match the stored hash; and with time strictly before expiry, the token
unrevoked, the hash matching and the owner present, it succeeds. -/
theorem c1_validate_token (hashFn : Str → Str) (now : Nat) (db : AuthDb)
    (s : Str) (tc : token) (tok : AuthToken)
    (hparse : parseTokenString s = .ok tc)
    (htok : getToken db.tokens tc.id = some tok) :
    ((tok.ExpiresAt ≤ now ∨ tok.Revoked = true) →
      ValidateToken hashFn now db s = .error .errUnauthenticated) ∧
    (hashFn tc.secret ≠ tok.Hash →
      ValidateToken hashFn now db s = .error .errUnauthenticated) ∧
    (∀ user : User, now < tok.ExpiresAt → tok.Revoked = false →
      hashFn tc.secret = tok.Hash → getUser db.users tok.UserID = some user →
      ValidateToken hashFn now db s = .ok (user, tok.ID)) := by
  refine ⟨?_, ?_, ?_⟩
  · rintro (hexp | hrev)
    · simp [ValidateToken, hparse, htok, hexp]
    · by_cases hexp : tok.ExpiresAt ≤ now <;>
        simp [ValidateToken, hparse, htok, hexp, hrev]
  · intro hmismatch
    by_cases hexp : tok.ExpiresAt ≤ now
    · simp [ValidateToken, hparse, htok, hexp]
    · by_cases hrev : tok.Revoked <;>
        simp [ValidateToken, hparse, htok, hexp, hrev, hmismatch]
  · intro user hlt hrev hmatch huser
    simp [ValidateToken, hparse, htok, Nat.not_le_of_lt hlt, hrev, hmatch, huser]

/-- C1 witness: with a concrete store holding one token expiring at time
200, validation at time 100 succeeds, at the expiry instant 200 it
rejects, and a wrong secret at time 100 also rejects. -/
theorem c1_witness :
    ValidateToken (fun s => 'h' :: s) 100
        { users := [{ ID := "u1".data, Username := "alice".data, Password := "p".data }],
          tokens := [{ ID := "ab".data, Hash := 'h' :: "sec".data, UserID := "u1".data,
                       UserAgent := [], SourceIP := [], Revoked := false,
                       CreatedAt := 0, ExpiresAt := 200 }] }
        "ab.sec".data =
      .ok ({ ID := "u1".data, Username := "alice".data, Password := "p".data },
        "ab".data) ∧
    ValidateToken (fun s => 'h' :: s) 200
        { users := [{ ID := "u1".data, Username := "alice".data, Password := "p".data }],
          tokens := [{ ID := "ab".data, Hash := 'h' :: "sec".data, UserID := "u1".data,
                       UserAgent := [], SourceIP := [], Revoked := false,
                       CreatedAt := 0, ExpiresAt := 200 }] }
        "ab.sec".data = .error .errUnauthenticated ∧
    ValidateToken (fun s => 'h' :: s) 100
        { users := [{ ID := "u1".data, Username := "alice".data, Password := "p".data }],
          tokens := [{ ID := "ab".data, Hash := 'h' :: "sec".data, UserID := "u1".data,
                       UserAgent := [], SourceIP := [], Revoked := false,
                       CreatedAt := 0, ExpiresAt := 200 }] }
        "ab.sex".data = .error .errUnauthenticated := by
  have hmain := fun now tc =>
    c1_validate_token (fun s => 'h' :: s) now
      { users := [{ ID := "u1".data, Username := "alice".data, Password := "p".data }],
        tokens := [{ ID := "ab".data, Hash := 'h' :: "sec".data, UserID := "u1".data,
                     UserAgent := [], SourceIP := [], Revoked := false,
                     CreatedAt := 0, ExpiresAt := 200 }] }
      (tc : token).ToTokenString tc
      { ID := "ab".data, Hash := 'h' :: "sec".data, UserID := "u1".data,
        UserAgent := [], SourceIP := [], Revoked := false,
        CreatedAt := 0, ExpiresAt := 200 }
  refine ⟨?_, ?_, ?_⟩
  · exact (hmain 100 { id := "ab".data, secret := "sec".data }
      (by decide) (by decide)).2.2
      { ID := "u1".data, Username := "alice".data, Password := "p".data }
      (by decide) (by decide) (by decide) (by decide)
  · exact (hmain 200 { id := "ab".data, secret := "sec".data }
      (by decide) (by decide)).1 (Or.inl (by decide))
  · exact (hmain 100 { id := "ab".data, secret := "sex".data }
      (by decide) (by decide)).2.1 (by decide)

/-! ## Claim C2 -/

/-- C2 (code bug): `RevokeToken` never succeeds and never persists a
revocation. The repository `DeleteToken` issues its `UPDATE ... SET
revoked=true` through `QueryRow` without a `RETURNING` clause, so the
scan always sees an empty result set and reports `ErrNotFound`; the
service transaction therefore rolls back on every call, leaving the store
unchanged and answering Unauthenticated. In particular a valid stored
token still validates after being "revoked" (second conjunct, at a
concrete store). -/
theorem c2_revoke_never_succeeds :
    (∀ (db : AuthDb) (s : Str),
        RevokeToken db s = (db, .error .errUnauthenticated)) ∧
    ValidateToken (fun s => 'h' :: s) 100
        (RevokeToken
          { users := [{ ID := "u1".data, Username := "alice".data, Password := "p".data }],
            tokens := [{ ID := "ab".data, Hash := 'h' :: "sec".data, UserID := "u1".data,
                         UserAgent := [], SourceIP := [], Revoked := false,
                         CreatedAt := 0, ExpiresAt := 200 }] }
          "ab.sec".data).1
        "ab.sec".data =
      .ok ({ ID := "u1".data, Username := "alice".data, Password := "p".data },
        "ab".data) := by
  constructor
  · intro db s
    rcases hp : parseTokenString s with e | tc <;>
      simp [RevokeToken, hp, DeleteToken]
  · decide

/-! ## Claim C3 -/

/-- C3 counterexample: the session-based issuance path persists the
credential in recoverable form. `CreateSession` stores the generated
session id itself in the `Session.Token` column: after one call the
sessions table holds exactly the plaintext token that was returned to the
caller, not a hash of it. -/
theorem c3_counterexample :
    (CreateSession
        [{ ID := "u1".data, Username := "alice".data, Password := "p".data }] [] 50
        "1234-abcd".data
        { UserID := "u1".data, UserAgent := [], SourceIP := [] }).1.map
          (fun s => s.Token) =
      [generateSessionID "1234-abcd".data] ∧
    (CreateSession
        [{ ID := "u1".data, Username := "alice".data, Password := "p".data }] [] 50
        "1234-abcd".data
        { UserID := "u1".data, UserAgent := [], SourceIP := [] }).2 =
      .ok { UserID := "u1".data, Token := generateSessionID "1234-abcd".data,
            UserAgent := [], SourceIP := [], Revoked := false,
            CreatedAt := 50, ExpiresAt := 50 + 604800 } := by
  exact ⟨by decide, by decide⟩

/-- C3 (amended): the agent credential paths store only the hash. An
agent record created by bootstrap (`CreateAgentWithToken`) or by minting
(`CreateAgent`) is exactly the record whose `TokenHash` field is the hash
of the credential's secret — the secret itself enters the store only
through the hash function; but user session tokens of the session-based
path are persisted in full (see the counterexample). -/
theorem c3_agent_store_only_hash (hashFn : Str → Str) (now : Nat)
    (agents agents1 : List Agent) (name : Str) :
    (∀ (tokenPlain : Str) (tc : token) (a : Agent),
        parseTokenString tokenPlain = .ok tc →
        getAgent agents tc.id = none →
        CreateAgentWithToken hashFn now agents tokenPlain name = (agents1, .ok a) →
        a = { ID := tc.id, Name := name, TokenHash := hashFn tc.secret,
              CreatedAt := now } ∧
          agents1 = agents ++ [a]) ∧
    (∀ (idBytes secretBytes : List (Fin 256)) (a : Agent) (cred : Str),
        CreateAgent hashFn now agents name idBytes secretBytes =
          (agents1, .ok (a, cred)) →
        a = { ID := (newToken idBytes secretBytes).id, Name := name,
              TokenHash := hashFn (newToken idBytes secretBytes).secret,
              CreatedAt := now } ∧
          cred = (newToken idBytes secretBytes).ToTokenString ∧
          agents1 = agents ++ [a]) := by
  constructor
  · intro tokenPlain tc a hparse hnone hrun
    rw [CreateAgentWithToken, hparse] at hrun
    simp only [hnone] at hrun
    rcases hc : createAgentRow agents
        { ID := tc.id, Name := name, TokenHash := hashFn tc.secret,
          CreatedAt := now } with e | agents2 <;>
      rw [hc] at hrun
    · simp at hrun
    · rw [createAgentRow] at hc
      split at hc
      · simp at hc
      · simp only [Except.ok.injEq] at hc
        simp only [Prod.mk.injEq, Except.ok.injEq] at hrun
        exact ⟨hrun.2.symm, by rw [hrun.1.symm, ← hc, hrun.2]⟩
  · intro idBytes secretBytes a cred hrun
    rw [CreateAgent] at hrun
    rcases hc : createAgentRow agents
        { ID := (newToken idBytes secretBytes).id, Name := name,
          TokenHash := hashFn (newToken idBytes secretBytes).secret,
          CreatedAt := now } with e | agents2 <;>
      rw [hc] at hrun
    · simp at hrun
    · rw [createAgentRow] at hc
      split at hc
      · simp at hc
      · simp only [Except.ok.injEq] at hc
        simp only [Prod.mk.injEq, Except.ok.injEq] at hrun
        refine ⟨hrun.2.1.symm, hrun.2.2.symm, ?_⟩
        rw [hrun.1.symm, ← hc, hrun.2.1]

/-- C3 witness: the amended statement applied at a concrete bootstrap
call and a concrete minting call. -/
theorem c3_witness :
    ({ ID := "ab".data, Name := "n".data, TokenHash := 'h' :: "sec".data,
       CreatedAt := 7 } : Agent) =
      { ID := ("ab.sec".data.take 2), Name := "n".data,
        TokenHash := 'h' :: "sec".data, CreatedAt := 7 } ∧
    [({ ID := "ab".data, Name := "n".data, TokenHash := 'h' :: "sec".data,
        CreatedAt := 7 } : Agent)] =
      [] ++ [{ ID := "ab".data, Name := "n".data, TokenHash := 'h' :: "sec".data,
               CreatedAt := 7 }] :=
  ((c3_agent_store_only_hash (fun s => 'h' :: s) 7 []
      [{ ID := "ab".data, Name := "n".data, TokenHash := 'h' :: "sec".data,
         CreatedAt := 7 }] "n".data).1
    "ab.sec".data { id := "ab".data, secret := "sec".data }
    { ID := "ab".data, Name := "n".data, TokenHash := 'h' :: "sec".data,
      CreatedAt := 7 }
    (by decide) (by decide) (by decide)).imp (fun h => by rw [h]; decide) id

theorem goCutPfx_append (p s : Str) : goCutPfx p (p ++ s) = some s := by
  induction p with
  | nil => rfl
  | cons c cs ih => simp [goCutPfx, ih]

theorem tryUserAuthentication_spec (svc : AuthServiceOps) (r : Request) :
    tryUserAuthentication svc r = (r.ctx, false) ∨
    ∃ i : UserInfoData,
      tryUserAuthentication svc r = (.userInfo i :: r.ctx, true) := by
  by_cases hh : r.headers userTokenHeader = []
  · exact Or.inl (by simp [tryUserAuthentication, hh])
  · rcases hcut : goCutPfx "Bearer ".data (r.headers userTokenHeader) with - | ts
    · exact Or.inl (by simp [tryUserAuthentication, hh, hcut])
    · rcases hval : svc.validateToken ts with e | ⟨user, tokenId⟩
      · exact Or.inl (by simp [tryUserAuthentication, hh, hcut, hval])
      · exact Or.inr ⟨{ UserID := user.ID, Username := user.Username,
                        TokenID := tokenId },
          by simp [tryUserAuthentication, hh, hcut, hval]⟩

theorem tryAgentAuthentication_spec (svc : AuthServiceOps) (r : Request) :
    tryAgentAuthentication svc r = (r.ctx, false) ∨
    ∃ i : AgentInfoData,
      tryAgentAuthentication svc r = (.agentInfo i :: r.ctx, true) := by
  by_cases hh : r.headers agentTokenHeader = []
  · exact Or.inl (by simp [tryAgentAuthentication, hh])
  · rcases hval : svc.validateAgentToken (r.headers agentTokenHeader) with e | agent
    · exact Or.inl (by simp [tryAgentAuthentication, hh, hval])
    · exact Or.inr ⟨{ AgentID := agent.ID },
        by simp [tryAgentAuthentication, hh, hval]⟩

theorem getAgent_some_id (agents : List Agent) (i : Str) (a : Agent)
    (h : getAgent agents i = some a) : a.ID = i := by
  induction agents with
  | nil => simp [getAgent] at h
  | cons b rest ih =>
    rw [getAgent] at h
    split at h
    · cases h
      assumption
    · exact ih h

theorem getAgent_append_self (agents : List Agent) (a : Agent) (i : Str)
    (h : getAgent agents i = none) (ha : a.ID = i) :
    getAgent (agents ++ [a]) i = some a := by
  induction agents with
  | nil => simp [getAgent, ha]
  | cons b rest ih =>
    rw [getAgent] at h
    split at h
    · cases h
    · rename_i hb
      simpa [getAgent, hb] using ih h

/-! ## Claim C5 -/

/-- C5: (1) a request carrying a well-formed bearer header with a valid
user token and a valid agent credential header resolves to the User
principal, never the Agent; (2) every accepted request gets exactly one
principal attached to its incoming context — a user one or an agent one;
(3) when the outcome carries an agent principal, the user path had
failed (the agent path runs only after a user-path failure). -/
theorem c5_dual_path_precedence (svc : AuthServiceOps) (r : Request) :
    (∀ (s : Str) (user : User) (tokenId : Str) (agent : Agent),
        r.headers userTokenHeader = "Bearer ".data ++ s →
        svc.validateToken s = .ok (user, tokenId) →
        svc.validateAgentToken (r.headers agentTokenHeader) = .ok agent →
        OnRequest svc r = .accepted (.userInfo
          { UserID := user.ID, Username := user.Username,
            TokenID := tokenId } :: r.ctx)) ∧
    (∀ ctx, OnRequest svc r = .accepted ctx →
        (∃ i, ctx = .userInfo i :: r.ctx) ∨ (∃ i, ctx = .agentInfo i :: r.ctx)) ∧
    (∀ i, OnRequest svc r = .accepted (.agentInfo i :: r.ctx) →
        (tryUserAuthentication svc r).2 = false) := by
  refine ⟨?_, ?_, ?_⟩
  · intro s user tokenId agent hu hvu hva
    have htry : tryUserAuthentication svc r =
        (CtxEntry.userInfo
          { UserID := user.ID, Username := user.Username,
            TokenID := tokenId } :: r.ctx, true) := by
      unfold tryUserAuthentication
      rw [hu]
      have hc := goCutPfx_append "Bearer ".data s
      simp only [List.cons_append, List.nil_append] at hc
      simp [hc, hvu]
    simp [OnRequest, htry]
  · intro ctx hacc
    rcases tryUserAuthentication_spec svc r with hu | ⟨i, hu⟩
    · rcases tryAgentAuthentication_spec svc r with ha | ⟨j, ha⟩
      · simp [OnRequest, hu, ha] at hacc
      · rw [OnRequest] at hacc
        simp only [hu, ha] at hacc
        simp at hacc
        exact Or.inr ⟨j, hacc.symm⟩
    · rw [OnRequest] at hacc
      simp only [hu] at hacc
      simp at hacc
      exact Or.inl ⟨i, hacc.symm⟩
  · intro i hacc
    rcases tryUserAuthentication_spec svc r with hu | ⟨j, hu⟩
    · rw [hu]
    · rw [OnRequest] at hacc
      simp only [hu] at hacc
      simp at hacc

/-- C5 witness: a concrete request presenting both a valid user bearer
token and a valid agent credential is resolved to the User principal. -/
theorem c5_witness :
    OnRequest
      { validateToken := fun s =>
          if s = "ab.sec".data then
            .ok ({ ID := "u1".data, Username := "alice".data,
                   Password := "p".data }, "ab".data)
          else .error .errUnauthenticated,
        validateAgentToken := fun s =>
          if s = "cd.tok".data then
            .ok { ID := "cd".data, Name := "ag".data,
                  TokenHash := "h".data, CreatedAt := 0 }
          else .error .errUnauthenticated }
      { headers := fun h =>
          if h = userTokenHeader then "Bearer ab.sec".data
          else if h = agentTokenHeader then "cd.tok".data
          else [],
        ctx := [] } =
      .accepted [CtxEntry.userInfo
        { UserID := "u1".data, Username := "alice".data,
          TokenID := "ab".data }] :=
  (c5_dual_path_precedence
      { validateToken := fun s =>
          if s = "ab.sec".data then
            .ok ({ ID := "u1".data, Username := "alice".data,
                   Password := "p".data }, "ab".data)
          else .error .errUnauthenticated,
        validateAgentToken := fun s =>
          if s = "cd.tok".data then
            .ok { ID := "cd".data, Name := "ag".data,
                  TokenHash := "h".data, CreatedAt := 0 }
          else .error .errUnauthenticated }
      { headers := fun h =>
          if h = userTokenHeader then "Bearer ab.sec".data
          else if h = agentTokenHeader then "cd.tok".data
          else [],
        ctx := [] }).1
    "ab.sec".data
    { ID := "u1".data, Username := "alice".data, Password := "p".data }
    "ab".data
    { ID := "cd".data, Name := "ag".data, TokenHash := "h".data, CreatedAt := 0 }
    (by decide) (by decide) (by decide)

/-! ## Claim C6 -/

/-- C6: `CreateAgentWithToken` is idempotent. If an agent with the
credential's public id already exists it is returned unchanged with the
store untouched; a successful call creates an agent whose id is the
credential's public id and whose stored hash is the hash of the secret;
and repeating a successful call with the same credential and name returns
the very same agent and leaves the store unchanged — no second record. -/
theorem c6_bootstrap_idempotent (hashFn : Str → Str) (now now2 : Nat)
    (agents0 : List Agent) (tokenPlain name : Str) (tc : token)
    (hparse : parseTokenString tokenPlain = .ok tc) :
    (∀ a, getAgent agents0 tc.id = some a →
        CreateAgentWithToken hashFn now agents0 tokenPlain name = (agents0, .ok a)) ∧
    (∀ agents1 a1,
        CreateAgentWithToken hashFn now agents0 tokenPlain name = (agents1, .ok a1) →
        a1.ID = tc.id ∧
        CreateAgentWithToken hashFn now2 agents1 tokenPlain name = (agents1, .ok a1)) ∧
    (getAgent agents0 tc.id = none →
      ∀ agents1 a1,
        CreateAgentWithToken hashFn now agents0 tokenPlain name = (agents1, .ok a1) →
        a1 = { ID := tc.id, Name := name, TokenHash := hashFn tc.secret,
               CreatedAt := now } ∧
          agents1 = agents0 ++ [a1]) := by
  refine ⟨?_, ?_, ?_⟩
  · intro a ha
    simp [CreateAgentWithToken, hparse, ha]
  · intro agents1 a1 hrun
    rw [CreateAgentWithToken, hparse] at hrun
    rcases hget : getAgent agents0 tc.id with - | a
    · simp only [hget] at hrun
      rcases hc : createAgentRow agents0
          { ID := tc.id, Name := name, TokenHash := hashFn tc.secret,
            CreatedAt := now } with e | agents2 <;>
        rw [hc] at hrun
      · simp at hrun
      · simp only [Prod.mk.injEq, Except.ok.injEq] at hrun
        obtain ⟨h1, h2⟩ := hrun
        rw [createAgentRow] at hc
        split at hc
        · cases hc
        · simp only [Except.ok.injEq] at hc
          have hid : a1.ID = tc.id := by rw [← h2]
          refine ⟨hid, ?_⟩
          have hget1 : getAgent agents1 tc.id = some a1 := by
            rw [← h1, ← hc, ← h2]
            exact getAgent_append_self agents0 _ tc.id hget rfl
          simp [CreateAgentWithToken, hparse, hget1]
    · simp only [hget] at hrun
      simp only [Prod.mk.injEq, Except.ok.injEq] at hrun
      obtain ⟨h1, h2⟩ := hrun
      have hid : a1.ID = tc.id := by
        rw [← h2]
        exact getAgent_some_id agents0 tc.id a hget
      refine ⟨hid, ?_⟩
      have hget1 : getAgent agents1 tc.id = some a1 := by
        rw [← h1, ← h2]
        exact hget
      simp [CreateAgentWithToken, hparse, hget1]
  · intro hget agents1 a1 hrun
    rw [CreateAgentWithToken, hparse] at hrun
    simp only [hget] at hrun
    rcases hc : createAgentRow agents0
        { ID := tc.id, Name := name, TokenHash := hashFn tc.secret,
          CreatedAt := now } with e | agents2 <;>
      rw [hc] at hrun
    · simp at hrun
    · rw [createAgentRow] at hc
      split at hc
      · cases hc
      · simp only [Except.ok.injEq] at hc
        simp only [Prod.mk.injEq, Except.ok.injEq] at hrun
        exact ⟨hrun.2.symm, by rw [← hrun.1, ← hc, hrun.2]⟩

/-- C6 witness: bootstrapping twice with the same credential and name on
an initially empty store creates one agent whose id is the credential's
public id and whose stored hash is the hash of the credential's secret,
and the second call returns the same agent, leaving a single record. -/
theorem c6_witness :
    ({ ID := "ab".data, Name := "n".data, TokenHash := 'h' :: "sec".data,
       CreatedAt := 1 } : Agent).ID = ("ab".data ++ "sec".data).take 2 ∧
    ({ ID := "ab".data, Name := "n".data, TokenHash := 'h' :: "sec".data,
       CreatedAt := 1 } : Agent).TokenHash = 'h' :: "sec".data ∧
    CreateAgentWithToken (fun s => 'h' :: s) 2
        [{ ID := "ab".data, Name := "n".data, TokenHash := 'h' :: "sec".data,
           CreatedAt := 1 }] "ab.sec".data "n".data =
      ([{ ID := "ab".data, Name := "n".data, TokenHash := 'h' :: "sec".data,
          CreatedAt := 1 }],
        .ok { ID := "ab".data, Name := "n".data, TokenHash := 'h' :: "sec".data,
              CreatedAt := 1 }) := by
  have hmain := c6_bootstrap_idempotent (fun s => 'h' :: s) 1 2 []
    "ab.sec".data "n".data { id := "ab".data, secret := "sec".data } (by decide)
  have hB := hmain.2.1
    [{ ID := "ab".data, Name := "n".data, TokenHash := 'h' :: "sec".data,
       CreatedAt := 1 }]
    { ID := "ab".data, Name := "n".data, TokenHash := 'h' :: "sec".data,
      CreatedAt := 1 }
    (by decide)
  have hC := hmain.2.2 (by decide)
    [{ ID := "ab".data, Name := "n".data, TokenHash := 'h' :: "sec".data,
       CreatedAt := 1 }]
    { ID := "ab".data, Name := "n".data, TokenHash := 'h' :: "sec".data,
      CreatedAt := 1 }
    (by decide)
  refine ⟨by rw [hB.1]; decide, by rw [hC.1], hB.2⟩
